import Mathlib

/-!
Shallow embedding of the `prime-efr-web` enrollment pipeline
(becastil/enrollment-automation).

The embedded code comes from:
* `client/src/utils/excelParser.ts` and `server/src/utils/dataUtils.ts`
  (`normalizeClientId`, `normalizeTier`, `getPlanType`,
  `calculateTierTotals`, `splitChildTier`);
* `server/src/services/enrollmentProcessor.ts` (`processEnrollmentData`,
  `getRecordCount`, `parseCountValue`, `getTabForClientId`);
* `server/src/validators/enrollmentValidator.ts` (`validateEnrollmentData`);
* `server/src/routes/enrollment.ts` (`router.post('/process')`);
* `server/src/services/validationService.ts` (`runValidation`);
* `client/src/store/slices/enrollmentSlice.ts` (state shape, `clearData`,
  `BEN_CODE_TO_TIER`);
* `client/src/store/slices/configSlice.ts` (state shape, `updateTabConfig`).

Modelling conventions: finite JavaScript numbers are modelled as exact
rationals (the counts in play are small integers, so float rounding is not
observable); `NaN`/`Infinity` get an explicit constructor; JavaScript
objects whose keys are accessed dynamically are modelled as association
lists; a JavaScript string field that is absent or `undefined` is modelled
as the empty string where only its truthiness is consumed.  `Number(...)`
on strings is modelled for optionally signed decimal literals, the only
shape occurring in this data.
-/

/-- Value stored in a dynamically accessed field of a source row. -/
inductive CellValue where
  | num (q : ℚ)
  | nonfinite
  | str (s : String)
  | nullv
  deriving Repr, DecidableEq

/-- JavaScript `s.trim()`, modelled on the character list. -/
def jsTrim (s : String) : String :=
  String.mk (((s.toList.dropWhile Char.isWhitespace).reverse.dropWhile
    Char.isWhitespace).reverse)

/-- JavaScript `s.toUpperCase()` (the data in this domain is ASCII). -/
def jsToUpper (s : String) : String :=
  String.mk (s.toList.map Char.toUpper)

/-- JavaScript `s.replace(/,/g, '')`: drop every comma. -/
def removeCommas (s : String) : String :=
  String.mk (s.toList.filter (fun c => c ≠ ','))

/-- Split a character list at every `'.'` (JavaScript `s.split('.')`). -/
def splitDot : List Char → List (List Char)
  | [] => [[]]
  | c :: cs =>
    match splitDot cs with
    | [] => [[]]
    | g :: gs => if c = '.' then [] :: g :: gs else (c :: g) :: gs

/-- Digits of a decimal literal folded into a natural number. -/
def digitsVal (cs : List Char) : ℕ :=
  cs.foldl (fun a c => a * 10 + (c.toNat - 48)) 0

/-- Unsigned decimal literal (`"12"`, `"12.5"`, `".5"`, `"12."`). -/
def parseUnsignedDecimal (cs : List Char) : Option ℚ :=
  match splitDot cs with
  | [w] =>
    if w ≠ [] ∧ w.all Char.isDigit then some ((digitsVal w : ℚ)) else none
  | [w, f] =>
    if (w ≠ [] ∨ f ≠ []) ∧ w.all Char.isDigit ∧ f.all Char.isDigit then
      some ((digitsVal w : ℚ) + (digitsVal f : ℚ) / ((10 : ℚ) ^ f.length))
    else none
  | _ => none

/-- JavaScript `Number(s)` restricted to finite results on optionally
signed decimal literals; `none` models `NaN` and non-finite results. -/
def parseJSNumber (s : String) : Option ℚ :=
  match s.toList with
  | '-' :: rest => (parseUnsignedDecimal rest).map Neg.neg
  | '+' :: rest => parseUnsignedDecimal rest
  | _ => parseUnsignedDecimal s.toList

/-- Embeds `parseCountValue` of `enrollmentProcessor.ts`: `undefined`,
`null` and `''` give `null`; finite numbers pass through; strings are
comma-stripped, trimmed and fed to `Number`. -/
def parseCountValue : CellValue → Option ℚ
  | .nullv => none
  | .num q => some q
  | .nonfinite => none
  | .str s =>
    if s = "" then none
    else
      let normalized := jsTrim (removeCommas s)
      if normalized = "" then none else parseJSNumber normalized

/-- One source row (`EnrollmentData` of `enrollmentProcessor.ts`): the
three string columns plus the record's remaining own fields, kept as an
association list for the dynamic `field in record` accesses. -/
structure EnrollmentData where
  CLIENT_ID : String
  PLAN : String
  BEN_CODE : String
  numFields : List (String × CellValue) := []
  deriving Repr, DecidableEq

/-- Dynamic field access `record[field]` for the non-column fields;
`none` models an absent key (`field in record` false). -/
def EnrollmentData.getField (r : EnrollmentData) (name : String) : Option CellValue :=
  r.numFields.lookup name

/-- Embeds `numericFieldCandidates` of `enrollmentProcessor.ts`. -/
def numericFieldCandidates : List String :=
  ["count", "COUNT", "Count", "VALUE", "Value", "value", "TOTAL", "Total", "total"]

/-- The candidate-scanning loop of `getRecordCount`: first present field
whose `parseCountValue` is non-null. -/
def findCandidateCount : List String → EnrollmentData → Option ℚ
  | [], _ => none
  | f :: rest, r =>
    match r.getField f with
    | some v =>
      match parseCountValue v with
      | some q => some q
      | none => findCandidateCount rest r
    | none => findCandidateCount rest r

/-- Embeds `getRecordCount` of `enrollmentProcessor.ts`: the `count` field
first, then the candidate list. -/
def getRecordCount (r : EnrollmentData) : Option ℚ :=
  match r.getField "count" with
  | some v =>
    match parseCountValue v with
    | some q => some q
    | none => findCandidateCount numericFieldCandidates r
  | none => findCandidateCount numericFieldCandidates r

/-- Embeds `normalizeClientId` (`dataUtils.ts` / `excelParser.ts`):
`clientId.trim().toUpperCase()`. -/
def normalizeClientId (clientId : String) : String :=
  jsToUpper (jsTrim clientId)

/-- The fixed `tierMap` table of `normalizeTier`. -/
def tierMap : List (String × String) :=
  [("EMP", "EE"), ("ESP", "EE & Spouse"), ("ECH", "EE & Children"), ("FAM", "EE & Family")]

/-- Embeds `normalizeTier` (`dataUtils.ts` / `excelParser.ts`):
`tierMap[benCode] || benCode` — an unmapped code falls through unchanged
(none of the mapped values is falsy). -/
def normalizeTier (benCode : String) : String :=
  match tierMap.lookup benCode with
  | some t => t
  | none => benCode

/-- JavaScript `s.includes(pat)`. -/
def jsIncludes (s pat : String) : Bool :=
  decide (pat.toList <:+: s.toList)

/-- The "default rules" branch of `getPlanType`: substring guesses applied
to a plan code with no (truthy) direct mapping. -/
def getPlanTypeFallback (planCode : String) : String :=
  if jsIncludes planCode "VAL" || jsIncludes planCode "VALUE" then "VALUE"
  else if jsIncludes planCode "EPO" then "EPO"
  else if jsIncludes planCode "PPO" then "PPO"
  else "UNKNOWN"

/-- Embeds `getPlanType` (`dataUtils.ts` / `excelParser.ts`): a truthy
direct mapping wins (`if (planMappings[planCode])`, so a mapping to the
empty string is skipped), otherwise the substring default rules run. -/
def getPlanType (planCode : String) (planMappings : List (String × String)) : String :=
  match planMappings.lookup planCode with
  | some t => if t = "" then getPlanTypeFallback planCode else t
  | none => getPlanTypeFallback planCode

/-- The four-tier totals record (`createEmptyTotals` shape). -/
structure TierTotals where
  EE : ℚ
  eeSpouse : ℚ
  eeChildren : ℚ
  eeFamily : ℚ
  deriving Repr, DecidableEq

/-- Embeds `createEmptyTotals` of `enrollmentProcessor.ts`. -/
def createEmptyTotals : TierTotals :=
  ⟨0, 0, 0, 0⟩

/-- Dynamic update `if (tier in totals) totals[tier] += units` on the
four-key totals object. -/
def TierTotals.add (tt : TierTotals) (tier : String) (units : ℚ) : TierTotals :=
  if tier = "EE" then { tt with EE := tt.EE + units }
  else if tier = "EE & Spouse" then { tt with eeSpouse := tt.eeSpouse + units }
  else if tier = "EE & Children" then { tt with eeChildren := tt.eeChildren + units }
  else if tier = "EE & Family" then { tt with eeFamily := tt.eeFamily + units }
  else tt

/-- Embeds `calculateTierTotals` of `dataUtils.ts`: per-record `++` on the
normalized tier when it is one of the four keys. -/
def calculateTierTotals (data : List EnrollmentData) : TierTotals :=
  data.foldl (fun tt r => tt.add (normalizeTier r.BEN_CODE) 1) createEmptyTotals

/-- Record shape consumed by `splitChildTier`: the `tier` field and the
optional `dependentCount` field (absent / `null` modelled as `none`). The
object spread keeps every other field unchanged, so they are not modelled. -/
structure TierRecord where
  tier : String
  dependentCount : Option ℚ := none
  deriving Repr, DecidableEq

/-- Embeds `splitChildTier` of `dataUtils.ts`: on 5-tier data a record in
`EE & Children` is reassigned by `record.dependentCount || 2` (absent and
`0` are falsy, so they default to `2`); no other output is produced. -/
def splitChildTier (data : List TierRecord) (is5Tier : Bool) : List TierRecord :=
  if !is5Tier then data
  else
    data.map fun r =>
      if r.tier = "EE & Children" then
        let childCount : ℚ :=
          match r.dependentCount with
          | some q => if q = 0 then 2 else q
          | none => 2
        { r with tier := if childCount = 1 then "EE & Child" else "EE & Children" }
      else r

/-- One aggregated tab object built by `processEnrollmentData` (and the
client's `TabData` interface shape). -/
structure TabData where
  name : String
  client_ids : List String
  blockLabels : List String
  totals : TierTotals
  hasDiscrepancies : Bool
  deriving Repr, DecidableEq

/-- Embeds `ProcessConfig` of `enrollmentProcessor.ts`. -/
structure ProcessConfig where
  planMappings : List (String × String)
  allowedTabs : List String
  excludedClientIds : List String
  deriving Repr, DecidableEq

/-- Embeds the `summary` object of `ProcessResult`. -/
structure ProcessSummary where
  totalRecords : ℕ
  processedRecords : ℚ
  skippedRecords : ℕ
  deriving Repr, DecidableEq

/-- Embeds `ProcessResult` of `enrollmentProcessor.ts`. -/
structure ProcessResult where
  summary : ProcessSummary
  tabData : List TabData
  controlTotals : TierTotals
  deriving Repr, DecidableEq

/-- Embeds `getTabForClientId` of `enrollmentProcessor.ts`:
`cidToTabMap[clientId] || null`. -/
def getTabForClientId (clientId : String) : Option String :=
  ([("H3170", "Legacy"), ("H3130", "Legacy"), ("H3100", "Legacy"),
    ("H3270", "Centinela"), ("H3250", "Encino-Garden Grove"),
    ("H3260", "Encino-Garden Grove")] : List (String × String)).lookup clientId

/-- Mutable loop state of `processEnrollmentData`: the `tabDataMap`
(insertion-ordered, keys unique) plus the three counters. -/
structure ProcessState where
  controlTotals : TierTotals
  tabs : List (String × TabData)
  processed : ℚ
  skipped : ℕ
  deriving Repr, DecidableEq

/-- The fresh tab object inserted by `tabDataMap.set(tab, {...})`. -/
def freshTab (name : String) : TabData :=
  { name := name, client_ids := [], blockLabels := [],
    totals := createEmptyTotals, hasDiscrepancies := false }

/-- `Map.set` for a missing key: append the fresh entry, keep an existing
one (the JS guard `if (!tabDataMap.has(tab))`). -/
def ensureTab (m : List (String × TabData)) (k : String) : List (String × TabData) :=
  if m.any (fun p => p.1 = k) then m else m ++ [(k, freshTab k)]

/-- In-place mutation of the entry stored under key `k`. -/
def modifyTab (m : List (String × TabData)) (k : String) (f : TabData → TabData) :
    List (String × TabData) :=
  m.map fun p => if p.1 = k then (p.1, f p.2) else p

/-- The `tabData` mutations of the loop body: push the client id when new,
then add the units onto the tier total when the tier is a known key. -/
def updateTab (clientId tier : String) (units : ℚ) (td : TabData) : TabData :=
  let td :=
    if td.client_ids.contains clientId then td
    else { td with client_ids := td.client_ids ++ [clientId] }
  { td with totals := td.totals.add tier units }

/-- One iteration of the `for (const record of data)` loop of
`processEnrollmentData`, in source order: exclusion check, normalization,
unknown-plan skip, control-total update, tab resolution and allowlist
check, tab aggregation. -/
def processStep (config : ProcessConfig) (st : ProcessState) (record : EnrollmentData) :
    ProcessState :=
  if config.excludedClientIds.contains record.CLIENT_ID then
    { st with skipped := st.skipped + 1 }
  else
    let clientId := normalizeClientId record.CLIENT_ID
    let tier := normalizeTier record.BEN_CODE
    let planType := getPlanType record.PLAN config.planMappings
    let units := (getRecordCount record).getD 1
    if planType = "UNKNOWN" then
      { st with skipped := st.skipped + 1 }
    else
      let ct := st.controlTotals.add tier units
      match getTabForClientId clientId with
      | none => { st with controlTotals := ct, skipped := st.skipped + 1 }
      | some tab =>
        if !config.allowedTabs.contains tab then
          { st with controlTotals := ct, skipped := st.skipped + 1 }
        else
          { st with
            controlTotals := ct,
            tabs := modifyTab (ensureTab st.tabs tab) tab (updateTab clientId tier units),
            processed := st.processed + units }

/-- Embeds `processEnrollmentData` of `enrollmentProcessor.ts`. -/
def processEnrollmentData (data : List EnrollmentData) (config : ProcessConfig) :
    ProcessResult :=
  let st := data.foldl (processStep config)
    { controlTotals := createEmptyTotals, tabs := [], processed := 0, skipped := 0 }
  { summary :=
      { totalRecords := data.length,
        processedRecords := st.processed,
        skippedRecords := st.skipped },
    tabData := st.tabs.map (fun p => p.2),
    controlTotals := st.controlTotals }

/-- Result shape of `validateEnrollmentData` (`enrollmentValidator.ts`). -/
structure InputValidationResult where
  isValid : Bool
  issues : List String
  deriving Repr, DecidableEq

/-- Dynamic access `record[field]` for the three required string columns
of `enrollmentValidator.ts`; only its truthiness is consumed. -/
def EnrollmentData.getStrField (r : EnrollmentData) (f : String) : String :=
  if f = "CLIENT_ID" then r.CLIENT_ID
  else if f = "PLAN" then r.PLAN
  else if f = "BEN_CODE" then r.BEN_CODE
  else ""

/-- JavaScript `Set` insertion: append when absent, keep insertion order. -/
def insertUnique (l : List String) (x : String) : List String :=
  if l.contains x then l else l ++ [x]

/-- The `requiredFields` list of `validateEnrollmentData`. -/
def requiredFields : List String :=
  ["CLIENT_ID", "PLAN", "BEN_CODE"]

/-- The `missingFields` set: required fields falsy on some record. -/
def collectMissingFields (data : List EnrollmentData) : List String :=
  data.foldl
    (fun acc r =>
      requiredFields.foldl
        (fun acc f => if r.getStrField f = "" then insertUnique acc f else acc) acc)
    []

/-- The `validBenCodes` list of `validateEnrollmentData`. -/
def validBenCodes : List String :=
  ["EMP", "ESP", "ECH", "FAM"]

/-- The `invalidBenCodes` set: truthy `BEN_CODE` values outside
`validBenCodes`, in first-appearance order. -/
def collectInvalidBenCodes (data : List EnrollmentData) : List String :=
  data.foldl
    (fun acc r =>
      if r.BEN_CODE ≠ "" ∧ ¬ validBenCodes.contains r.BEN_CODE then
        insertUnique acc r.BEN_CODE
      else acc)
    []

/-- The regex `/^H\d+$/` of `validateEnrollmentData`. -/
def clientIdFormatOk (s : String) : Bool :=
  match s.toList with
  | 'H' :: rest => !rest.isEmpty && rest.all Char.isDigit
  | _ => false

/-- The `invalidClientIds` set: truthy `CLIENT_ID` values failing the
format regex, in first-appearance order. -/
def collectInvalidClientIds (data : List EnrollmentData) : List String :=
  data.foldl
    (fun acc r =>
      if r.CLIENT_ID ≠ "" ∧ ¬ clientIdFormatOk r.CLIENT_ID then
        insertUnique acc r.CLIENT_ID
      else acc)
    []

/-- Embeds `validateEnrollmentData` of `enrollmentValidator.ts` (the
`Array.isArray` branch cannot fire on a list). -/
def validateEnrollmentData (data : List EnrollmentData) : InputValidationResult :=
  if data.isEmpty then
    { isValid := false, issues := ["Data array is empty"] }
  else
    let missingFields := collectMissingFields data
    let issues : List String :=
      if missingFields.length > 0 then
        ["Missing required fields: " ++ String.intercalate ", " missingFields]
      else []
    let invalidBenCodes := collectInvalidBenCodes data
    let issues :=
      if invalidBenCodes.length > 0 then
        issues ++ ["Invalid BEN_CODE values: " ++ String.intercalate ", " invalidBenCodes]
      else issues
    let invalidClientIds := collectInvalidClientIds data
    let issues :=
      if invalidClientIds.length > 0 ∧ invalidClientIds.length ≤ 5 then
        issues ++ ["Invalid CLIENT_ID format: " ++ String.intercalate ", " invalidClientIds]
      else if invalidClientIds.length > 5 then
        issues ++ [toString invalidClientIds.length ++ " CLIENT_IDs have invalid format"]
      else issues
    { isValid := issues.length = 0, issues := issues }

/-- Response of the `/process` route (`enrollment.ts`): HTTP 400 with the
validator's issues, or HTTP 200 with the processing result. -/
inductive ProcessResponse where
  | badRequest (error : String) (issues : List String)
  | success (result : ProcessResult)
  deriving Repr, DecidableEq

/-- HTTP status of a `/process` response. -/
def ProcessResponse.status : ProcessResponse → ℕ
  | .badRequest _ _ => 400
  | .success _ => 200

/-- Embeds `router.post('/process')` of `enrollment.ts`: validate the
body, reject invalid data with 400 before processing, otherwise process. -/
def processEndpoint (data : List EnrollmentData) (config : ProcessConfig) :
    ProcessResponse :=
  let validation := validateEnrollmentData data
  if validation.isValid then
    .success (processEnrollmentData data config)
  else
    .badRequest "Invalid enrollment data" validation.issues

/-- Detail payloads carried by `ValidationIssue.details` in
`validationService.ts`. -/
inductive IssueDetails where
  | totalMismatch (tier : String) (expected actual difference : ℚ)
  | multiBlock (blockCount : ℕ) (planTypes : List String)
  deriving Repr, DecidableEq

/-- Embeds the `ValidationIssue` interface of `validationService.ts`. -/
structure ValidationIssue where
  id : String
  type : String
  category : String
  tab : Option String := none
  client_id : Option String := none
  plan : Option String := none
  message : String
  details : Option IssueDetails := none
  suggestedFix : Option String := none
  deriving Repr, DecidableEq

/-- One element of the untyped `tabData` array consumed by
`runValidation`: the fields the function reads (`totals || {}` and a
missing `blocks`/`client_ids` are modelled as the empty list). -/
structure VTabBlock where
  plan_type : String
  deriving Repr, DecidableEq

/-- Tab object as read by `runValidation`. -/
structure VTab where
  name : String
  client_ids : List String := []
  totals : List (String × ℚ) := []
  blocks : List VTabBlock := []
  deriving Repr, DecidableEq

/-- The `issues.push({id: issue-counter, ...})` step: the id counter
always equals the number of issues already pushed plus one. -/
def pushIssue (acc : List ValidationIssue) (mk : String → ValidationIssue) :
    List ValidationIssue :=
  acc ++ [mk ("issue-" ++ toString (acc.length + 1))]

/-- Truthiness of `config.planMappings[record.PLAN]`. -/
def planMappedTruthy (pm : List (String × String)) (plan : String) : Bool :=
  match pm.lookup plan with
  | some t => t ≠ ""
  | none => false

/-- The `unmappedPlans` set of `runValidation`, in first-appearance order. -/
def collectUnmappedPlans (src : List EnrollmentData) (pm : List (String × String)) :
    List String :=
  src.foldl
    (fun acc r => if planMappedTruthy pm r.PLAN then acc else insertUnique acc r.PLAN)
    []

/-- Issue pushed for one unmapped plan code. -/
def mkMissingMappingIssue (plan : String) (id : String) : ValidationIssue :=
  { id := id, type := "error", category := "missing_mapping", plan := some plan,
    message := "Plan code \"" ++ plan ++ "\" has no mapping",
    suggestedFix :=
      some ("Add mapping for plan code \"" ++ plan ++ "\" to EPO, VALUE, or PPO") }

/-- The hardcoded `expectedTotals` table of `runValidation`. -/
def expectedTotals : List (String × ℚ) :=
  [("EE", 14533), ("EE & Spouse", 2639), ("EE & Children", 4413), ("EE & Family", 3123)]

/-- Value of `actualTotals[tier] || 0` after the accumulation loop: the
sum of every `tab.totals` entry under that tier across all tabs. -/
def actualTotal (tabs : List VTab) (tier : String) : ℚ :=
  tabs.foldl
    (fun a tab =>
      tab.totals.foldl (fun b p => if p.1 = tier then b + p.2 else b) a)
    0

/-- Issue pushed for one mismatching control total. -/
def mkTotalMismatchIssue (tier : String) (expected actual : ℚ) (id : String) :
    ValidationIssue :=
  { id := id, type := "error", category := "total_mismatch",
    message := tier ++ " total mismatch: expected " ++ toString expected ++
      ", got " ++ toString actual,
    details := some (.totalMismatch tier expected actual (actual - expected)) }

/-- The `unassignedClients` set of `runValidation`. -/
def collectUnassignedClients (src : List EnrollmentData) (tabs : List VTab)
    (excluded : List String) : List String :=
  src.foldl
    (fun acc r =>
      if ¬ tabs.any (fun tab => tab.client_ids.contains r.CLIENT_ID) ∧
          ¬ excluded.contains r.CLIENT_ID then
        insertUnique acc r.CLIENT_ID
      else acc)
    []

/-- Issue pushed for one client id assigned to no tab. -/
def mkUnassignedIssue (clientId : String) (id : String) : ValidationIssue :=
  { id := id, type := "warning", category := "unassigned_plan",
    client_id := some clientId,
    message := "Client ID \"" ++ clientId ++ "\" is not assigned to any tab",
    suggestedFix :=
      some ("Map client ID \"" ++ clientId ++ "\" to an appropriate tab") }

/-- Issue pushed for one tab holding blocks of several plan types. -/
def mkMultiBlockIssue (tabName : String) (blockCount : ℕ) (planTypes : List String)
    (id : String) : ValidationIssue :=
  { id := id, type := "info", category := "multi_block", tab := some tabName,
    message := "Tab \"" ++ tabName ++ "\" has multiple block types",
    details := some (.multiBlock blockCount planTypes) }

/-- Distinct `plan_type`s of a tab's blocks, in first-appearance order
(the JS `Set` built from `tab.blocks.map(b => b.plan_type)`). -/
def distinctPlanTypes (blocks : List VTabBlock) : List String :=
  blocks.foldl (fun acc b => insertUnique acc b.plan_type) []

/-- Issue accumulation of `runValidation`, in source order: missing plan
mappings, control-total mismatches, unassigned clients, multi-block tabs. -/
def runValidationIssues (src : List EnrollmentData) (tabs : List VTab)
    (config : ProcessConfig) : List ValidationIssue :=
  let issues := (collectUnmappedPlans src config.planMappings).foldl
    (fun acc plan => pushIssue acc (mkMissingMappingIssue plan)) []
  let issues := expectedTotals.foldl
    (fun acc te =>
      if actualTotal tabs te.1 ≠ te.2 then
        pushIssue acc (mkTotalMismatchIssue te.1 te.2 (actualTotal tabs te.1))
      else acc)
    issues
  let issues := (collectUnassignedClients src tabs config.excludedClientIds).foldl
    (fun acc c => pushIssue acc (mkUnassignedIssue c)) issues
  (tabs.foldl
    (fun acc tab =>
      if tab.blocks.length > 1 then
        if (distinctPlanTypes tab.blocks).length > 1 then
          pushIssue acc
            (mkMultiBlockIssue tab.name tab.blocks.length (distinctPlanTypes tab.blocks))
        else acc
      else acc)
    issues)

/-- Occurrence counter backing `summary.byCategory` / `summary.byTab`. -/
def bumpCount (m : List (String × ℕ)) (k : String) : List (String × ℕ) :=
  if m.any (fun p => p.1 = k) then
    m.map (fun p => if p.1 = k then (p.1, p.2 + 1) else p)
  else m ++ [(k, 1)]

/-- Embeds the `summary` object computed at the end of `runValidation`. -/
structure ValidationSummary where
  totalIssues : ℕ
  errors : ℕ
  warnings : ℕ
  info : ℕ
  byCategory : List (String × ℕ)
  byTab : List (String × ℕ)
  deriving Repr, DecidableEq

/-- Embeds the `ValidationResult` interface of `validationService.ts`. -/
structure RunValidationResult where
  issues : List ValidationIssue
  summary : ValidationSummary
  deriving Repr, DecidableEq

/-- Embeds `runValidation` of `validationService.ts`. -/
def runValidation (sourceData : List EnrollmentData) (tabData : List VTab)
    (config : ProcessConfig) : RunValidationResult :=
  let issues := runValidationIssues sourceData tabData config
  { issues := issues,
    summary :=
      { totalIssues := issues.length,
        errors := (issues.filter (fun i => i.type = "error")).length,
        warnings := (issues.filter (fun i => i.type = "warning")).length,
        info := (issues.filter (fun i => i.type = "info")).length,
        byCategory := issues.foldl (fun m i => bumpCount m i.category) [],
        byTab := issues.foldl
          (fun m i => match i.tab with | some t => bumpCount m t | none => m) [] } }

/-- One client-side `EnrollmentRecord` (`enrollmentSlice.ts`). -/
structure ClientRecord where
  CLIENT_ID : String
  PLAN : String
  BEN_CODE : String
  plan_type : Option String := none
  tier : Option String := none
  count : ℚ := 0
  deriving Repr, DecidableEq

/-- Embeds the `EnrollmentState` interface of `enrollmentSlice.ts`; the
`File` object is modelled by its name. -/
structure EnrollmentState where
  sourceData : List ClientRecord
  tabData : List TabData
  controlTotals : TierTotals
  uploadedFile : Option String
  loading : Bool
  error : Option String
  deriving Repr, DecidableEq

/-- Embeds `initialState` of `enrollmentSlice.ts`. -/
def initialEnrollmentState : EnrollmentState :=
  { sourceData := [], tabData := [], controlTotals := createEmptyTotals,
    uploadedFile := none, loading := false, error := none }

/-- Embeds the `BEN_CODE_TO_TIER` table of `enrollmentSlice.ts`. -/
def BEN_CODE_TO_TIER : List (String × String) :=
  [("EMP", "EE"), ("ESP", "EE & Spouse"), ("ECH", "EE & Children"),
   ("FAM", "EE & Family"), ("E1D", "EE & Children")]

/-- Embeds the `clearData` reducer of `enrollmentSlice.ts`: it assigns
`sourceData`, `tabData`, `uploadedFile` and `error` and touches nothing
else. -/
def clearData (state : EnrollmentState) : EnrollmentState :=
  { state with sourceData := [], tabData := [], uploadedFile := none, error := none }

/-- Embeds the `uploadFile` reducer of `enrollmentSlice.ts`. -/
def uploadFile (state : EnrollmentState) (file : String) : EnrollmentState :=
  { state with uploadedFile := some file, loading := true, error := none }

/-- One `sum_of` block of a `BlockAggregation` (`configSlice.ts`). -/
structure BlockRule where
  plan_type : String
  sum_of : List String
  deriving Repr, DecidableEq

/-- Embeds the `BlockAggregation` interface of `configSlice.ts`: the
label-indexed `blocks` object is an association list. -/
structure BlockAggregation where
  client_id : String
  blocks : List (String × BlockRule)
  deriving Repr, DecidableEq

/-- Embeds the `TabConfig` interface of `configSlice.ts`. -/
structure TabConfig where
  name : String
  client_ids : List String
  is_5tier : Option Bool := none
  blocks : List BlockAggregation
  deriving Repr, DecidableEq

/-- Embeds the `ConfigState` interface of `configSlice.ts`. -/
structure ConfigState where
  planMappings : List (String × String)
  tabConfigs : List TabConfig
  allowedTabs : List String
  excludedClientIds : List String
  loading : Bool
  error : Option String
  deriving Repr, DecidableEq

/-- Embeds `initialState` of `configSlice.ts` (static allowlist and the
excluded Alvarado client). -/
def initialConfigState : ConfigState :=
  { planMappings := [], tabConfigs := [],
    allowedTabs :=
      ["Centinela", "Coshocton", "Dallas Medical Center", "Dallas Regional",
       "East Liverpool", "Encino-Garden Grove", "Garden City", "Harlingen",
       "Illinois", "Knapp", "Lake Huron", "Landmark", "Legacy", "Lower Bucks",
       "Mission", "Monroe", "North Vista", "Pampa", "Providence & St John",
       "Riverview & Gadsden", "Roxborough", "Saint Clare\x27s", "Saint Mary\x27s Passaic",
       "Saint Mary\x27s Reno", "Southern Regional", "St Joe & St Mary\x27s",
       "St Michael\x27s", "St. Francis", "Suburban"],
    excludedClientIds := ["H3310"],
    loading := false, error := none }

/-- Embeds the `setTabConfigs` reducer of `configSlice.ts`. -/
def setTabConfigs (state : ConfigState) (configs : List TabConfig) : ConfigState :=
  { state with tabConfigs := configs }

/-- Embeds the `updateTabConfig` reducer of `configSlice.ts`: replace the
entry with the same name, or push a new one; no validation of any kind is
performed on the payload. -/
def updateTabConfig (state : ConfigState) (payload : TabConfig) : ConfigState :=
  match state.tabConfigs.findIdx? (fun tab => tab.name = payload.name) with
  | some i => { state with tabConfigs := state.tabConfigs.set i payload }
  | none => { state with tabConfigs := state.tabConfigs ++ [payload] }

/-- Sum of the four tier totals of one totals record. -/
def sumTiers (tt : TierTotals) : ℚ :=
  tt.EE + tt.eeSpouse + tt.eeChildren + tt.eeFamily

/-- The tab a record is routed to by the loop of `processEnrollmentData`:
`none` when the record is excluded, its plan type resolves to `UNKNOWN`,
its client has no tab, or the tab fails the allowlist check — mirroring
the guard order of `processStep`. -/
def routedTab (config : ProcessConfig) (record : EnrollmentData) : Option String :=
  if config.excludedClientIds.contains record.CLIENT_ID then none
  else if getPlanType record.PLAN config.planMappings = "UNKNOWN" then none
  else
    match getTabForClientId (normalizeClientId record.CLIENT_ID) with
    | none => none
    | some tab => if !config.allowedTabs.contains tab then none else some tab

/-- Number of source records routed to a given tab. -/
def routedCount (data : List EnrollmentData) (config : ProcessConfig) (tab : String) : ℕ :=
  (data.filter (fun r => routedTab config r == some tab)).length

/-- Whether a tier label is one of the four keys of the totals record. -/
def recognizedTier (t : String) : Bool :=
  t == "EE" || t == "EE & Spouse" || t == "EE & Children" || t == "EE & Family"

/-- The unit weight of a record: its parsed count, `1` when none parses. -/
def recordUnits (r : EnrollmentData) : ℚ :=
  (getRecordCount r).getD 1

/-- Contribution of one record to one tab's tier totals: its units when it
is routed there with a recognized tier, `0` otherwise. -/
def routedUnits (config : ProcessConfig) (tab : String) (r : EnrollmentData) : ℚ :=
  if routedTab config r = some tab ∧ recognizedTier (normalizeTier r.BEN_CODE) then
    recordUnits r
  else 0

/-- Total weight of the records that land in a given tab's tier totals. -/
def weightedRouted (data : List EnrollmentData) (config : ProcessConfig) (tab : String) : ℚ :=
  (data.map (routedUnits config tab)).sum

/-- Whether some plan code appears in the `sum_of` lists of two distinct
block labels of the same client aggregation of a tab configuration. -/
def blocksOverlap (tc : TabConfig) : Bool :=
  tc.blocks.any fun agg =>
    agg.blocks.any fun lb =>
      lb.2.sum_of.any fun code =>
        agg.blocks.any fun lb2 => lb2.1 ≠ lb.1 && lb2.2.sum_of.contains code

/-- A `ValidationIssue` without its positional id. -/
structure IssueBody where
  type : String
  category : String
  tab : Option String
  client_id : Option String
  plan : Option String
  message : String
  details : Option IssueDetails
  suggestedFix : Option String
  deriving Repr, DecidableEq

/-- Projection dropping the positional id of an issue. -/
def issueBody (i : ValidationIssue) : IssueBody :=
  ⟨i.type, i.category, i.tab, i.client_id, i.plan, i.message, i.details, i.suggestedFix⟩

/-- Sample processing configuration: one mapped EPO plan code, the Legacy
tab allowed, nobody excluded. -/
def cfgLegacy : ProcessConfig :=
  { planMappings := [("PRIMEMMEPO", "EPO")],
    allowedTabs := ["Legacy"],
    excludedClientIds := [] }

/-- Sample record: a Legacy-routed employee-only enrollment. -/
def dupRecord : EnrollmentData :=
  { CLIENT_ID := "H3170", PLAN := "PRIMEMMEPO", BEN_CODE := "EMP" }

/-- Sample record with the unmapped benefit code `E1D`. -/
def e1dRecord : EnrollmentData :=
  { CLIENT_ID := "H3170", PLAN := "PRIMEMMEPO", BEN_CODE := "E1D" }

/-- Sample `EE & Children` record with no dependent-count hint. -/
def echNoHint : TierRecord :=
  { tier := "EE & Children", dependentCount := none }

/-- Sample tab object produced by routing one `dupRecord` to Legacy. -/
def legacyTab1 : TabData :=
  { name := "Legacy", client_ids := ["H3170"], blockLabels := [],
    totals := { EE := 1, eeSpouse := 0, eeChildren := 0, eeFamily := 0 },
    hasDiscrepancies := false }

/-- Tab configuration whose two EPO blocks both list the plan code
`PRIMEMMEPO` in `sum_of` (Scenario B of the specification). -/
def overlappingTabConfig : TabConfig :=
  { name := "Encino-Garden Grove", client_ids := ["H3250"], is_5tier := some true,
    blocks :=
      [{ client_id := "H3250",
         blocks :=
           [("SEIU 121 RN", { plan_type := "EPO", sum_of := ["PRIMEMMEPO"] }),
            ("Non-Union", { plan_type := "EPO", sum_of := ["PRIMEMMEPO"] })] }] }

attribute [local semireducible] Rat.add Rat.sub Rat.mul Rat.inv

/-- Sum of `sumTiers` over the map entries stored under one key. -/
def tabsSum : List (String × TabData) → String → ℚ
  | [], _ => 0
  | p :: rest, k => (if p.1 = k then sumTiers p.2.totals else 0) + tabsSum rest k

/-- Number of map entries stored under one key. -/
def keyCount : List (String × TabData) → String → ℕ
  | [], _ => 0
  | p :: rest, k => (if p.1 = k then 1 else 0) + keyCount rest k

lemma sumTiers_empty : sumTiers createEmptyTotals = 0 := by
  norm_num [sumTiers, createEmptyTotals]

lemma sumTiers_add (tt : TierTotals) (tier : String) (u : ℚ) :
    sumTiers (tt.add tier u) = sumTiers tt + (if recognizedTier tier then u else 0) := by
  by_cases h1 : tier = "EE"
  · subst h1; simp [TierTotals.add, sumTiers, recognizedTier]; ring
  · by_cases h2 : tier = "EE & Spouse"
    · subst h2; simp [TierTotals.add, sumTiers, recognizedTier]; ring
    · by_cases h3 : tier = "EE & Children"
      · subst h3; simp [TierTotals.add, sumTiers, recognizedTier]; ring
      · by_cases h4 : tier = "EE & Family"
        · subst h4; simp [TierTotals.add, sumTiers, recognizedTier]; ring
        · simp [TierTotals.add, sumTiers, recognizedTier, h1, h2, h3, h4]

lemma updateTab_name (c tier : String) (u : ℚ) (td : TabData) :
    (updateTab c tier u td).name = td.name := by
  simp only [updateTab]
  split <;> rfl

lemma updateTab_sum (c tier : String) (u : ℚ) (td : TabData) :
    sumTiers (updateTab c tier u td).totals =
      sumTiers td.totals + (if recognizedTier tier then u else 0) := by
  simp only [updateTab]
  split <;> simp [sumTiers_add]

lemma tabsSum_append (m m' : List (String × TabData)) (k : String) :
    tabsSum (m ++ m') k = tabsSum m k + tabsSum m' k := by
  induction m with
  | nil => simp [tabsSum]
  | cons p rest ih => simp [tabsSum, ih]; ring

lemma keyCount_append (m m' : List (String × TabData)) (k : String) :
    keyCount (m ++ m') k = keyCount m k + keyCount m' k := by
  induction m with
  | nil => simp [keyCount]
  | cons p rest ih => simp [keyCount, ih]; ring

lemma tabsSum_ensure (m : List (String × TabData)) (k' k : String) :
    tabsSum (ensureTab m k') k = tabsSum m k := by
  unfold ensureTab
  split
  · rfl
  · simp [tabsSum_append, tabsSum, sumTiers_empty, freshTab]

lemma keyCount_of_not_any (m : List (String × TabData)) (k : String)
    (h : m.any (fun p => p.1 = k) = false) : keyCount m k = 0 := by
  induction m with
  | nil => rfl
  | cons p rest ih =>
    simp only [List.any_cons, Bool.or_eq_false_iff] at h
    simp [keyCount, ih h.2, decide_eq_false_iff_not.mp h.1]

lemma keyCount_ensure_self (m : List (String × TabData)) (k : String)
    (honce : keyCount m k ≤ 1) : keyCount (ensureTab m k) k = 1 := by
  unfold ensureTab
  split
  · rename_i h
    have hpos : 1 ≤ keyCount m k := by
      simp only [List.any_eq_true] at h
      obtain ⟨p, hp, hk⟩ := h
      clear honce
      induction m with
      | nil => simp at hp
      | cons q rest ih =>
        rcases List.mem_cons.mp hp with rfl | hmem
        · simp [keyCount, decide_eq_true_eq.mp hk]
        · have := ih hmem
          simp only [keyCount]
          omega
    omega
  · rename_i h
    have h0 := keyCount_of_not_any m k (Bool.of_not_eq_true h)
    simp [keyCount_append, h0, keyCount]

lemma keyCount_ensure (m : List (String × TabData)) (k' k : String)
    (honce : keyCount m k ≤ 1) : keyCount (ensureTab m k') k ≤ 1 := by
  unfold ensureTab
  split
  · exact honce
  · rename_i h
    rcases eq_or_ne k' k with rfl | hne
    · have h0 := keyCount_of_not_any m k' (Bool.of_not_eq_true h)
      simp [keyCount_append, h0, keyCount]
    · simp [keyCount_append, keyCount, hne, honce]

lemma keyCount_modify (m : List (String × TabData)) (k' k : String)
    (f : TabData → TabData) : keyCount (modifyTab m k' f) k = keyCount m k := by
  induction m with
  | nil => rfl
  | cons p rest ih =>
    simp only [modifyTab, List.map_cons, keyCount]
    rw [show (modifyTab rest k' f) = rest.map
      (fun p => if p.1 = k' then (p.1, f p.2) else p) from rfl] at ih
    rw [ih]
    split <;> simp [keyCount]

lemma tabsSum_modify_update (m : List (String × TabData)) (k c tier : String) (u : ℚ) :
    tabsSum (modifyTab m k (updateTab c tier u)) k =
      tabsSum m k + (keyCount m k : ℚ) * (if recognizedTier tier then u else 0) := by
  induction m with
  | nil => simp [modifyTab, tabsSum, keyCount]
  | cons p rest ih =>
    simp only [modifyTab, List.map_cons, tabsSum, keyCount] at *
    rw [ih]
    by_cases hk : p.1 = k
    · simp [hk, updateTab_sum]
      split_ifs <;> ring
    · simp [hk]

lemma tabsSum_modify_ne (m : List (String × TabData)) (k' k : String)
    (f : TabData → TabData) (hne : k' ≠ k) :
    tabsSum (modifyTab m k' f) k = tabsSum m k := by
  induction m with
  | nil => rfl
  | cons p rest ih =>
    simp only [modifyTab, List.map_cons, tabsSum] at *
    rw [ih]
    by_cases hk : p.1 = k'
    · simp [hk, hne]
    · simp [hk]

/-- Name/allowlist invariant of the `tabDataMap` entries: each entry's tab
object carries its key as name, and every key passed the allowlist check. -/
def tabsNamed (config : ProcessConfig) (tabs : List (String × TabData)) : Prop :=
  ∀ p ∈ tabs, p.2.name = p.1 ∧ p.1 ∈ config.allowedTabs

lemma step_tabs_agg (config : ProcessConfig) (st : ProcessState) (r : EnrollmentData)
    (hex : r.CLIENT_ID ∉ config.excludedClientIds)
    (hunk : getPlanType r.PLAN config.planMappings ≠ "UNKNOWN")
    {tab : String} (htab : getTabForClientId (normalizeClientId r.CLIENT_ID) = some tab)
    (hallow : tab ∈ config.allowedTabs) :
    (processStep config st r).tabs =
      modifyTab (ensureTab st.tabs tab) tab
        (updateTab (normalizeClientId r.CLIENT_ID) (normalizeTier r.BEN_CODE)
          ((getRecordCount r).getD 1)) := by
  simp [processStep, hex, hunk, htab, hallow]

lemma step_tabs_skip (config : ProcessConfig) (st : ProcessState) (r : EnrollmentData)
    (h : routedTab config r = none) : (processStep config st r).tabs = st.tabs := by
  by_cases hex : r.CLIENT_ID ∈ config.excludedClientIds
  · simp [processStep, hex]
  · by_cases hunk : getPlanType r.PLAN config.planMappings = "UNKNOWN"
    · simp [processStep, hex, hunk]
    · cases htab : getTabForClientId (normalizeClientId r.CLIENT_ID) with
      | none => simp [processStep, hex, hunk, htab]
      | some tab =>
        by_cases hallow : tab ∈ config.allowedTabs
        · exfalso
          simp [routedTab, hex, hunk, htab, hallow] at h
        · simp [processStep, hex, hunk, htab, hallow]

lemma step_tabsSum (config : ProcessConfig) (st : ProcessState) (r : EnrollmentData)
    (honce : ∀ k, keyCount st.tabs k ≤ 1) (k : String) :
    tabsSum (processStep config st r).tabs k = tabsSum st.tabs k + routedUnits config k r := by
  by_cases hex : r.CLIENT_ID ∈ config.excludedClientIds
  · rw [step_tabs_skip config st r (by simp [routedTab, hex])]
    simp [routedUnits, routedTab, hex]
  · by_cases hunk : getPlanType r.PLAN config.planMappings = "UNKNOWN"
    · rw [step_tabs_skip config st r (by simp [routedTab, hex, hunk])]
      simp [routedUnits, routedTab, hex, hunk]
    · cases htab : getTabForClientId (normalizeClientId r.CLIENT_ID) with
      | none =>
        rw [step_tabs_skip config st r (by simp [routedTab, hex, hunk, htab])]
        simp [routedUnits, routedTab, hex, hunk, htab]
      | some tab =>
        by_cases hallow : tab ∈ config.allowedTabs
        · rw [step_tabs_agg config st r hex hunk htab hallow]
          rcases eq_or_ne tab k with rfl | hne
          · rw [tabsSum_modify_update, tabsSum_ensure, keyCount_ensure_self _ _ (honce tab)]
            simp [routedUnits, routedTab, hex, hunk, htab, hallow, recordUnits]
          · rw [tabsSum_modify_ne _ _ _ _ hne, tabsSum_ensure]
            simp [routedUnits, routedTab, hex, hunk, htab, hallow, hne]
        · rw [step_tabs_skip config st r (by simp [routedTab, hex, hunk, htab, hallow])]
          simp [routedUnits, routedTab, hex, hunk, htab, hallow]

lemma step_keyCount (config : ProcessConfig) (st : ProcessState) (r : EnrollmentData)
    (honce : ∀ k, keyCount st.tabs k ≤ 1) (k : String) :
    keyCount (processStep config st r).tabs k ≤ 1 := by
  by_cases hroute : routedTab config r = none
  · rw [step_tabs_skip config st r hroute]
    exact honce k
  · by_cases hex : r.CLIENT_ID ∈ config.excludedClientIds
    · exact absurd (by simp [routedTab, hex]) hroute
    · by_cases hunk : getPlanType r.PLAN config.planMappings = "UNKNOWN"
      · exact absurd (by simp [routedTab, hex, hunk]) hroute
      · cases htab : getTabForClientId (normalizeClientId r.CLIENT_ID) with
        | none => exact absurd (by simp [routedTab, hex, hunk, htab]) hroute
        | some tab =>
          by_cases hallow : tab ∈ config.allowedTabs
          · rw [step_tabs_agg config st r hex hunk htab hallow, keyCount_modify]
            exact keyCount_ensure _ _ _ (honce k)
          · exact absurd (by simp [routedTab, hex, hunk, htab, hallow]) hroute

lemma step_named (config : ProcessConfig) (st : ProcessState) (r : EnrollmentData)
    (h : tabsNamed config st.tabs) : tabsNamed config (processStep config st r).tabs := by
  by_cases hroute : routedTab config r = none
  · rw [step_tabs_skip config st r hroute]
    exact h
  · by_cases hex : r.CLIENT_ID ∈ config.excludedClientIds
    · exact absurd (by simp [routedTab, hex]) hroute
    · by_cases hunk : getPlanType r.PLAN config.planMappings = "UNKNOWN"
      · exact absurd (by simp [routedTab, hex, hunk]) hroute
      · cases htab : getTabForClientId (normalizeClientId r.CLIENT_ID) with
        | none => exact absurd (by simp [routedTab, hex, hunk, htab]) hroute
        | some tab =>
          by_cases hallow : tab ∈ config.allowedTabs
          · rw [step_tabs_agg config st r hex hunk htab hallow]
            intro p hp
            rcases List.mem_map.mp hp with ⟨q, hq, rfl⟩
            have hbase : q.2.name = q.1 ∧ q.1 ∈ config.allowedTabs := by
              unfold ensureTab at hq
              split at hq
              · exact h q hq
              · rcases List.mem_append.mp hq with hmem | hnew
                · exact h q hmem
                · rcases List.mem_singleton.mp hnew with rfl
                  exact ⟨rfl, hallow⟩
            by_cases hk : q.1 = tab
            · simpa [hk, updateTab_name] using hbase
            · simpa [hk] using hbase
          · exact absurd (by simp [routedTab, hex, hunk, htab, hallow]) hroute

lemma foldl_process_invariants (config : ProcessConfig) (data : List EnrollmentData) :
    ∀ st : ProcessState, (∀ k, keyCount st.tabs k ≤ 1) → tabsNamed config st.tabs →
      (∀ k, keyCount ((data.foldl (processStep config) st).tabs) k ≤ 1) ∧
      tabsNamed config ((data.foldl (processStep config) st).tabs) ∧
      (∀ k, tabsSum ((data.foldl (processStep config) st).tabs) k =
        tabsSum st.tabs k + weightedRouted data config k) := by
  induction data with
  | nil => intro st h1 h2; exact ⟨h1, h2, fun k => by simp [weightedRouted]⟩
  | cons r rest ih =>
    intro st h1 h2
    obtain ⟨g1, g2, g3⟩ := ih (processStep config st r)
      (step_keyCount config st r h1) (step_named config st r h2)
    refine ⟨g1, g2, fun k => ?_⟩
    rw [List.foldl_cons] at *
    rw [g3 k, step_tabsSum config st r h1 k]
    simp [weightedRouted]
    ring

lemma keyCount_pos_of_mem {m : List (String × TabData)} {p : String × TabData}
    (hp : p ∈ m) : 1 ≤ keyCount m p.1 := by
  induction m with
  | nil => simp at hp
  | cons q rest ih =>
    rcases List.mem_cons.mp hp with rfl | hmem
    · simp [keyCount]
    · have := ih hmem
      simp only [keyCount]
      omega

lemma tabsSum_zero_of_keyCount_zero {m : List (String × TabData)} {k : String}
    (h : keyCount m k = 0) : tabsSum m k = 0 := by
  induction m with
  | nil => rfl
  | cons q rest ih =>
    simp only [keyCount] at h
    by_cases hk : q.1 = k
    · simp [hk] at h
    · simp only [tabsSum, hk, if_false]
      rw [ih (by omega)]
      simp

lemma tabsSum_of_mem {m : List (String × TabData)} {p : String × TabData}
    (honce : ∀ k, keyCount m k ≤ 1) (hp : p ∈ m) :
    tabsSum m p.1 = sumTiers p.2.totals := by
  induction m with
  | nil => simp at hp
  | cons q rest ih =>
    rcases List.mem_cons.mp hp with rfl | hmem
    · have hz : keyCount rest p.1 = 0 := by
        have h1 := honce p.1
        simp [keyCount] at h1
        omega
      simp [tabsSum, tabsSum_zero_of_keyCount_zero hz]
    · have hpos := keyCount_pos_of_mem hmem
      by_cases hk : q.1 = p.1
      · exfalso
        have h1 := honce p.1
        simp [keyCount, hk] at h1
        omega
      · have honce' : ∀ k, keyCount rest k ≤ 1 := by
          intro k
          have h1 := honce k
          simp only [keyCount] at h1
          omega
        simp only [tabsSum, hk, if_false, ih honce' hmem]
        simp

lemma stage_missing_body (l : List String) :
    ∀ acc : List ValidationIssue,
      ((l.foldl (fun acc plan => pushIssue acc (mkMissingMappingIssue plan)) acc).map issueBody) =
        acc.map issueBody ++ l.map (fun plan => issueBody (mkMissingMappingIssue plan "")) := by
  induction l with
  | nil => intro acc; simp
  | cons x rest ih =>
    intro acc
    rw [List.foldl_cons, ih]
    simp [pushIssue, issueBody, mkMissingMappingIssue]

lemma stage_mismatch_body (tabs : List VTab) (l : List (String × ℚ)) :
    ∀ acc : List ValidationIssue,
      ((l.foldl
        (fun acc te =>
          if actualTotal tabs te.1 ≠ te.2 then
            pushIssue acc (mkTotalMismatchIssue te.1 te.2 (actualTotal tabs te.1))
          else acc)
        acc).map issueBody) =
      acc.map issueBody ++
        (l.filter fun te => decide (actualTotal tabs te.1 ≠ te.2)).map
          (fun te => issueBody (mkTotalMismatchIssue te.1 te.2 (actualTotal tabs te.1) "")) := by
  induction l with
  | nil => intro acc; simp
  | cons x rest ih =>
    intro acc
    by_cases hx : actualTotal tabs x.1 ≠ x.2
    · rw [List.foldl_cons, if_pos hx, ih]
      simp [pushIssue, List.filter_cons, hx, issueBody, mkTotalMismatchIssue]
    · rw [List.foldl_cons, if_neg hx, ih]
      simp [List.filter_cons, hx]

lemma stage_unassigned_body (l : List String) :
    ∀ acc : List ValidationIssue,
      ((l.foldl (fun acc c => pushIssue acc (mkUnassignedIssue c)) acc).map issueBody) =
        acc.map issueBody ++ l.map (fun c => issueBody (mkUnassignedIssue c "")) := by
  induction l with
  | nil => intro acc; simp
  | cons x rest ih =>
    intro acc
    rw [List.foldl_cons, ih]
    simp [pushIssue, issueBody, mkUnassignedIssue]

lemma stage_multi_body (l : List VTab) :
    ∀ acc : List ValidationIssue,
      ((l.foldl
        (fun acc tab =>
          if tab.blocks.length > 1 then
            if (distinctPlanTypes tab.blocks).length > 1 then
              pushIssue acc
                (mkMultiBlockIssue tab.name tab.blocks.length (distinctPlanTypes tab.blocks))
            else acc
          else acc)
        acc).map issueBody) =
      acc.map issueBody ++
        (l.filter fun tab =>
            decide (tab.blocks.length > 1 ∧ (distinctPlanTypes tab.blocks).length > 1)).map
          (fun tab =>
            issueBody
              (mkMultiBlockIssue tab.name tab.blocks.length (distinctPlanTypes tab.blocks) "")) := by
  induction l with
  | nil => intro acc; simp
  | cons x rest ih =>
    intro acc
    by_cases h1 : x.blocks.length > 1 <;> by_cases h2 : (distinctPlanTypes x.blocks).length > 1
    · rw [List.foldl_cons, if_pos h1, if_pos h2, ih]
      simp [pushIssue, List.filter_cons, h1, h2, issueBody, mkMultiBlockIssue]
    · rw [List.foldl_cons, if_pos h1, if_neg h2, ih]
      simp [List.filter_cons, h1, h2]
    · rw [List.foldl_cons, if_neg h1, ih]
      simp [List.filter_cons, h1]
    · rw [List.foldl_cons, if_neg h1, ih]
      simp [List.filter_cons, h1]

lemma runValidation_issueBodies (src : List EnrollmentData) (tabs : List VTab)
    (config : ProcessConfig) :
    (runValidation src tabs config).issues.map issueBody =
      (collectUnmappedPlans src config.planMappings).map
        (fun plan => issueBody (mkMissingMappingIssue plan "")) ++
      ((expectedTotals.filter fun te => decide (actualTotal tabs te.1 ≠ te.2)).map
        (fun te => issueBody (mkTotalMismatchIssue te.1 te.2 (actualTotal tabs te.1) ""))) ++
      (collectUnassignedClients src tabs config.excludedClientIds).map
        (fun c => issueBody (mkUnassignedIssue c "")) ++
      ((tabs.filter fun tab =>
          decide (tab.blocks.length > 1 ∧ (distinctPlanTypes tab.blocks).length > 1)).map
        (fun tab =>
          issueBody (mkMultiBlockIssue tab.name tab.blocks.length (distinctPlanTypes tab.blocks) ""))) := by
  show (runValidationIssues src tabs config).map issueBody = _
  unfold runValidationIssues
  rw [stage_multi_body, stage_unassigned_body, stage_mismatch_body, stage_missing_body]
  simp [List.append_assoc]

lemma mem_insertUnique_self (l : List String) (x : String) : x ∈ insertUnique l x := by
  unfold insertUnique
  split
  · rename_i h
    simpa using h
  · exact List.mem_append_right _ (List.mem_singleton_self x)

lemma mem_insertUnique_of_mem (l : List String) (x y : String) (h : y ∈ l) :
    y ∈ insertUnique l x := by
  unfold insertUnique
  split
  · exact h
  · exact List.mem_append_left _ h

lemma mem_collectInvalid_aux (code : String)
    (hcode : code ≠ "" ∧ ¬ validBenCodes.contains code) :
    ∀ (data : List EnrollmentData) (acc : List String),
      ((∃ r ∈ data, r.BEN_CODE = code) ∨ code ∈ acc) →
      code ∈ data.foldl
        (fun acc r =>
          if r.BEN_CODE ≠ "" ∧ ¬ validBenCodes.contains r.BEN_CODE then
            insertUnique acc r.BEN_CODE
          else acc) acc := by
  intro data
  induction data with
  | nil =>
    intro acc h
    rcases h with ⟨r, hr, _⟩ | h
    · simp at hr
    · exact h
  | cons r rest ih =>
    intro acc h
    rw [List.foldl_cons]
    apply ih
    rcases h with ⟨r', hr', hcode'⟩ | hacc
    · rcases List.mem_cons.mp hr' with rfl | hmem
      · right
        rw [if_pos (hcode' ▸ hcode), hcode']
        exact mem_insertUnique_self _ _
      · exact Or.inl ⟨r', hmem, hcode'⟩
    · right
      split
      · exact mem_insertUnique_of_mem _ _ _ hacc
      · exact hacc

lemma e1d_mem_collect (data : List EnrollmentData)
    (h : ∃ r ∈ data, r.BEN_CODE = "E1D") : "E1D" ∈ collectInvalidBenCodes data :=
  mem_collectInvalid_aux "E1D" (by decide) data [] (Or.inl h)

lemma validate_issues_e1d (data : List EnrollmentData) (hne : data ≠ [])
    (hinv : collectInvalidBenCodes data ≠ []) :
    ("Invalid BEN_CODE values: " ++ String.intercalate ", " (collectInvalidBenCodes data))
      ∈ (validateEnrollmentData data).issues ∧
    (validateEnrollmentData data).isValid = false := by
  have h2 : (collectInvalidBenCodes data).length > 0 := List.length_pos.mpr hinv
  unfold validateEnrollmentData
  rw [if_neg (by simp [hne])]
  dsimp only
  split_ifs with h1 hb h3 h4 <;> first
    | (exact absurd h2 hb)
    | (constructor <;> simp [List.mem_append])

lemma processEndpoint_status_of_invalid (data : List EnrollmentData)
    (config : ProcessConfig) (h : (validateEnrollmentData data).isValid = false) :
    (processEndpoint data config).status = 400 := by
  simp [processEndpoint, h, ProcessResponse.status]

/-- C1: the specification claims plan classification is an exact-match
table lookup where every code absent from the table is returned as
`UNKNOWN`, never guessed from substrings.  Evaluating the embedded
`getPlanType` at the failing input `"XEPO"` with an empty mapping table
shows the implementation instead guesses `"EPO"` from its substring
default rules. -/
theorem claims_C1 :
    getPlanType "XEPO" [] = "EPO" ∧ getPlanType "XEPO" [] ≠ "UNKNOWN" := by
  decide

/-- C2: the specification claims a second contribution under an identical
key is discarded (first occurrence wins, aggregated total 1 for two
identical unit records).  Evaluating the embedded `processEnrollmentData`
at two identical unit records shows the implementation sums them: the
Legacy tab's `EE` total is `2`, and no duplicate is dropped or logged. -/
theorem claims_C2 :
    (processEnrollmentData [dupRecord, dupRecord] cfgLegacy).tabData =
      [{ name := "Legacy", client_ids := ["H3170"], blockLabels := [],
         totals := { EE := 2, eeSpouse := 0, eeChildren := 0, eeFamily := 0 },
         hasDiscrepancies := false }] := by
  decide

/-- C3: the specification claims `normalizeTier` returns the `UNKNOWN`
sentinel for every code outside the 4-tier table and never folds an
unmapped code into a real tier.  Evaluating the embedded `normalizeTier`
shows unmapped codes are returned unchanged (`"XYZ" ↦ "XYZ"`, not
`"UNKNOWN"`), and the unmapped raw code `"EE"` is therefore counted into
the real `EE` tier by `calculateTierTotals`. -/
theorem claims_C3 :
    normalizeTier "XYZ" = "XYZ" ∧ normalizeTier "XYZ" ≠ "UNKNOWN" ∧
    normalizeTier "EE" = "EE" ∧
    (calculateTierTotals [{ CLIENT_ID := "H3170", PLAN := "P", BEN_CODE := "EE" }]).EE = 1 := by
  decide

/-- C4 counterexample: the claim that each tab's tier totals sum to the
number of records routed to it fails at one routed record whose
`BEN_CODE` (`E1D`) normalizes to no recognized tier: the record is routed
to Legacy but the tab's tier totals sum to `0`, not `1`. -/
theorem claims_C4_cex :
    ¬ ∀ t ∈ (processEnrollmentData [e1dRecord] cfgLegacy).tabData,
        sumTiers t.totals = (routedCount [e1dRecord] cfgLegacy t.name : ℚ) := by
  decide

/-- C4 (amended): for every input and configuration, each output tab's
tier totals sum to the total unit weight (parsed `count`, default `1`) of
the records routed to that tab whose normalized tier is one of the four
recognized tier labels; records routed with an unrecognized tier
contribute nothing. -/
theorem claims_C4 (data : List EnrollmentData) (config : ProcessConfig) :
    ∀ t ∈ (processEnrollmentData data config).tabData,
      sumTiers t.totals = weightedRouted data config t.name := by
  intro t ht
  obtain ⟨hone, hnamed, hsum⟩ := foldl_process_invariants config data
    { controlTotals := createEmptyTotals, tabs := [], processed := 0, skipped := 0 }
    (fun k => by simp [keyCount]) (fun p hp => by simp at hp)
  rcases List.mem_map.mp ht with ⟨p, hp, rfl⟩
  have hnm := hnamed p hp
  have h1 := tabsSum_of_mem hone hp
  have h2 := hsum p.1
  rw [hnm.1, ← h1, h2]
  simp [tabsSum]

/-- C4 witness: one Legacy-routed unit record, where the amended
conservation equality holds with total 1. -/
theorem claims_C4_witness :
    legacyTab1 ∈ (processEnrollmentData [dupRecord] cfgLegacy).tabData ∧
    sumTiers legacyTab1.totals = weightedRouted [dupRecord] cfgLegacy legacyTab1.name :=
  ⟨by decide, claims_C4 [dupRecord] cfgLegacy legacyTab1 (by decide)⟩

/-- C5: allowlist closure — for every input record list and every
configuration, every tab object produced by `processEnrollmentData` has a
name contained in the configured `allowedTabs` list; no aggregation
target outside the allowlist is ever created, whatever the source data. -/
theorem claims_C5 (data : List EnrollmentData) (config : ProcessConfig) :
    ∀ t ∈ (processEnrollmentData data config).tabData, t.name ∈ config.allowedTabs := by
  intro t ht
  obtain ⟨hone, hnamed, hsum⟩ := foldl_process_invariants config data
    { controlTotals := createEmptyTotals, tabs := [], processed := 0, skipped := 0 }
    (fun k => by simp [keyCount]) (fun p hp => by simp at hp)
  rcases List.mem_map.mp ht with ⟨p, hp, rfl⟩
  have h := hnamed p hp
  rw [h.1]
  exact h.2

/-- C5 witness: the Legacy tab produced from one record is in the
configured allowlist. -/
theorem claims_C5_witness :
    legacyTab1 ∈ (processEnrollmentData [dupRecord] cfgLegacy).tabData ∧
    legacyTab1.name ∈ cfgLegacy.allowedTabs :=
  ⟨by decide, claims_C5 [dupRecord] cfgLegacy legacyTab1 (by decide)⟩

/-- C6: for every tier of the expected control-totals table,
`runValidation` emits a `total_mismatch` issue (with details tier,
expected, actual, difference) exactly when the actual sum of that tier
over all tabs differs from the expected total: the `total_mismatch`
issues of the returned list are, id aside, precisely the mismatching
table rows in order — none suppressed, none added for agreeing tiers. -/
theorem claims_C6 (src : List EnrollmentData) (tabs : List VTab) (config : ProcessConfig) :
    ((runValidation src tabs config).issues.filter
        (fun i => i.category == "total_mismatch")).map issueBody =
      (expectedTotals.filter fun te => decide (actualTotal tabs te.1 ≠ te.2)).map
        (fun te => issueBody (mkTotalMismatchIssue te.1 te.2 (actualTotal tabs te.1) "")) := by
  have hcomm : ((runValidation src tabs config).issues.filter
      (fun i => i.category == "total_mismatch")).map issueBody =
      ((runValidation src tabs config).issues.map issueBody).filter
        (fun b => b.category == "total_mismatch") := by
    rw [List.filter_map]
    rfl
  rw [hcomm, runValidation_issueBodies]
  simp only [List.filter_append, List.filter_map]
  simp [Function.comp_def, issueBody, mkMissingMappingIssue, mkTotalMismatchIssue,
    mkUnassignedIssue, mkMultiBlockIssue, List.filter_eq_nil_iff]

/-- C7: the specification claims a record with the `ECH` code and no
dependent-count hint on a 5-tier sheet is assigned to `EE & Children`
(never `EE & Child`) *and* that a warning ValidationIssue citing the
fallback is emitted.  Evaluating the embedded `splitChildTier` at that
failing input confirms the `EE & Children` assignment but shows the
function returns only the transformed records — no warning issue exists
anywhere in its output. -/
theorem claims_C7 :
    splitChildTier [echNoHint] true = [{ tier := "EE & Children", dependentCount := none }] := by
  decide

/-- C8: the specification claims a configuration in which one plan code
appears in the `sum_of` lists of two distinct blocks of the same sheet is
rejected at load time.  Evaluating the embedded `updateTabConfig` at such
an overlapping configuration shows it is stored unconditionally: the
state holds the overlapping config and carries no error. -/
theorem claims_C8 :
    blocksOverlap overlappingTabConfig = true ∧
    (updateTabConfig initialConfigState overlappingTabConfig).tabConfigs =
      [overlappingTabConfig] ∧
    (updateTabConfig initialConfigState overlappingTabConfig).error = none := by
  decide

/-- C9: the `clearData` reducer resets exactly `sourceData`, `tabData`,
`uploadedFile` and `error`; every other field — in particular
`controlTotals` and `loading` — keeps its previous value, so cleared
state still carries the prior upload's control totals. -/
theorem claims_C9 (state : EnrollmentState) :
    (clearData state).sourceData = [] ∧ (clearData state).tabData = [] ∧
    (clearData state).uploadedFile = none ∧ (clearData state).error = none ∧
    (clearData state).controlTotals = state.controlTotals ∧
    (clearData state).loading = state.loading :=
  ⟨rfl, rfl, rfl, rfl, rfl, rfl⟩

/-- C10: every non-empty dataset containing a record with `BEN_CODE`
`E1D` fails `validateEnrollmentData` (its accepted set is exactly EMP,
ESP, ECH, FAM) with an invalid-BEN_CODE issue naming `E1D`, so the
`/process` endpoint rejects the upload with HTTP 400 — even though the
client-side `BEN_CODE_TO_TIER` table maps `E1D` to `EE & Children`. -/
theorem claims_C10 (data : List EnrollmentData) (config : ProcessConfig)
    (h : ∃ r ∈ data, r.BEN_CODE = "E1D") :
    (validateEnrollmentData data).isValid = false ∧
    "E1D" ∈ collectInvalidBenCodes data ∧
    ("Invalid BEN_CODE values: " ++ String.intercalate ", " (collectInvalidBenCodes data))
      ∈ (validateEnrollmentData data).issues ∧
    (processEndpoint data config).status = 400 ∧
    BEN_CODE_TO_TIER.lookup "E1D" = some "EE & Children" := by
  obtain ⟨r, hr, hcode⟩ := h
  have hne : data ≠ [] := List.ne_nil_of_mem hr
  have hmem : "E1D" ∈ collectInvalidBenCodes data := e1d_mem_collect data ⟨r, hr, hcode⟩
  have hinv : collectInvalidBenCodes data ≠ [] := List.ne_nil_of_mem hmem
  obtain ⟨hiss, hval⟩ := validate_issues_e1d data hne hinv
  exact ⟨hval, hmem, hiss, processEndpoint_status_of_invalid data config hval, by decide⟩

/-- C10 witness: a one-record dataset with `BEN_CODE` `E1D` is rejected
with HTTP 400 while the client tier table would accept it. -/
theorem claims_C10_witness :
    (∃ r ∈ [e1dRecord], r.BEN_CODE = "E1D") ∧
    ((validateEnrollmentData [e1dRecord]).isValid = false ∧
     "E1D" ∈ collectInvalidBenCodes [e1dRecord] ∧
     ("Invalid BEN_CODE values: " ++
        String.intercalate ", " (collectInvalidBenCodes [e1dRecord]))
       ∈ (validateEnrollmentData [e1dRecord]).issues ∧
     (processEndpoint [e1dRecord] cfgLegacy).status = 400 ∧
     BEN_CODE_TO_TIER.lookup "E1D" = some "EE & Children") :=
  have h : ∃ r ∈ [e1dRecord], r.BEN_CODE = "E1D" := ⟨e1dRecord, by decide, rfl⟩
  ⟨h, claims_C10 [e1dRecord] cfgLegacy h⟩
